import Mathlib

/-!
A verification development for `vmpt.c` (VMCS-based analysis of Intel
Processor Trace captures).  The file models, as executable Lean functions,
the bundle-extraction state machine (`dump_bundle`), the packet fold that
the decoder driver performs (`runPackets`), the range-qualified file loader
(`parse_range`, `load_file`), the argument scan of `main`, the JSON output
writer, and the synchronization driver loop (`dump_sync`), and proves the
documented properties about them.
-/

/-- The four packet variants inspected by the bundle state machine
(`ppt_pip`, `ppt_pad`, `ppt_vmcs`, `ppt_tsc`), plus `other`, standing for
every further packet type the decoder can produce. -/
inductive Packet
  | pip (cr3 : Nat) (nr : Nat)
  | pad
  | vmcs (base : Nat)
  | tsc (tsc : Nat)
  | other
deriving DecidableEq

/-- One `fprintf` burst into `bundles.json`: the record-opening PIP
 fragment, a VMCS sub-object, or the TSC sub-object (which the code follows
 immediately with the record-closing text). -/
inductive OutEvent
  | pipFrag (cr3 : Nat) (nr : Nat)
  | vmcsFrag (base : Nat)
  | tscFrag (tsc : Nat)
deriving DecidableEq

/-- The global state flags of vmpt.c: `int got_pip, got_pad, got_vmcs,
pad_cnt`.  They are C `int`s that the program only ever sets to the
literals 0 and 1 (`pad_cnt` to 0..8), so `Nat` fields represent every value
the program stores.  The unused global `pkt_cnt` is omitted. -/
structure BState where
  got_pip : Nat
  got_pad : Nat
  got_vmcs : Nat
  pad_cnt : Nat
deriving DecidableEq

/-- Globals have static storage duration, hence start zero-initialized. -/
def clearState : BState := ⟨0, 0, 0, 0⟩

/-- The per-packet handler `dump_bundle` of vmpt.c.  It returns the updated
flag state, the list of output fragments written to `bundles.json`, and the
C return value: `some 0` in each of the four handled cases, and `none` for
every other packet type, where control falls off the end of the non-void C
function and the returned `int` is indeterminate. -/
def dump_bundle (s : BState) : Packet → BState × List OutEvent × Option Int
  | Packet.pip cr3 nr =>
    if s.got_pip = 0 then
      ({ s with got_pip := 1 }, [OutEvent.pipFrag cr3 nr], some 0)
    else
      (s, [], some 0)
  | Packet.pad =>
    let s1 := if s.got_pip = 1 ∧ s.pad_cnt < 8 then { s with pad_cnt := s.pad_cnt + 1 } else s
    let s2 := if s1.pad_cnt = 8 then { s1 with pad_cnt := 0, got_pad := 1 } else s1
    (s2, [], some 0)
  | Packet.vmcs base =>
    if s.got_pad = 1 ∧ s.got_pip = 1 then
      ({ s with got_vmcs := 1 }, [OutEvent.vmcsFrag base], some 0)
    else
      (s, [], some 0)
  | Packet.tsc t =>
    if s.got_pip = 1 ∧ s.got_vmcs = 1 then
      ({ s with got_pip := 0, got_vmcs := 0 }, [OutEvent.tscFrag t], some 0)
    else
      (s, [], some 0)
  | Packet.other => (s, [], none)

/-- Feeding a packet list through `dump_bundle` in stream order, collecting
the output fragments; this is what `dump_packets` does on a span of
successfully decoded packets. -/
def runPackets (s : BState) : List Packet → BState × List OutEvent
  | [] => (s, [])
  | p :: ps =>
    let r := dump_bundle s p
    let rest := runPackets r.1 ps
    (rest.1, r.2.1 ++ rest.2)

/-- One emitted bundle record: the PIP payload pair, the VMCS sub-objects
written into the record in order, and the TSC value that completed it. -/
structure Bundle where
  cr3 : Nat
  nr : Nat
  vmcsBases : List Nat
  tsc : Nat
deriving DecidableEq

/-- Grouping the output fragments into records: a PIP fragment opens a
record, VMCS fragments are appended to the open record, and a TSC fragment
completes and emits it.  A trailing open record is discarded. -/
def bundlesAux : Option (Nat × Nat × List Nat) → List OutEvent → List Bundle
  | _, [] => []
  | none, OutEvent.pipFrag c n :: rest => bundlesAux (some (c, n, [])) rest
  | none, OutEvent.vmcsFrag _ :: rest => bundlesAux none rest
  | none, OutEvent.tscFrag _ :: rest => bundlesAux none rest
  | some (c, n, vs), OutEvent.vmcsFrag b :: rest => bundlesAux (some (c, n, vs ++ [b])) rest
  | some (c, n, vs), OutEvent.tscFrag t :: rest =>
    { cr3 := c, nr := n, vmcsBases := vs, tsc := t } :: bundlesAux none rest
  | some (c, n, vs), OutEvent.pipFrag _ _ :: rest => bundlesAux (some (c, n, vs)) rest

/-- The bundle records present in an output fragment stream. -/
def bundlesOf (evs : List OutEvent) : List Bundle := bundlesAux none evs

/-- Whether a character is one of C's `isspace` characters, as skipped by
`strtoull`. -/
def isSpaceC (c : Char) : Bool :=
  decide (c = ' ' ∨ c = '\t' ∨ c = '\n' ∨ c = '\x0b' ∨ c = '\x0c' ∨ c = '\r')

/-- Drop leading `isspace` characters. -/
def skipWS : List Char → List Char
  | [] => []
  | c :: cs => if isSpaceC c then skipWS cs else c :: cs

/-- Whether `c` is a digit of the given numeric base (8, 10 or 16). -/
def isDigitBase (base : Nat) (c : Char) : Bool :=
  if base = 16 then
    decide (('0' ≤ c ∧ c ≤ '9') ∨ ('a' ≤ c ∧ c ≤ 'f') ∨ ('A' ≤ c ∧ c ≤ 'F'))
  else if base = 8 then
    decide ('0' ≤ c ∧ c ≤ '7')
  else
    decide ('0' ≤ c ∧ c ≤ '9')

/-- Numeric value of a digit character. -/
def digitVal (c : Char) : Nat :=
  if '0' ≤ c ∧ c ≤ '9' then c.toNat - '0'.toNat
  else if 'a' ≤ c ∧ c ≤ 'f' then 10 + (c.toNat - 'a'.toNat)
  else if 'A' ≤ c ∧ c ≤ 'F' then 10 + (c.toNat - 'A'.toNat)
  else 0

/-- Accumulate the longest run of digits of `base`, returning the value and
the unconsumed remainder. -/
def takeDigits (base : Nat) : List Char → Nat → Nat × List Char
  | [], acc => (acc, [])
  | c :: cs, acc =>
    if isDigitBase base c then takeDigits base cs (acc * base + digitVal c)
    else (acc, c :: cs)

/-- The digit part of `strtoull` with base 0: a `0x`/`0X` prefix selects
hexadecimal (if no hex digit follows, only the `0` is consumed), a leading
`0` selects octal, otherwise decimal.  `none` means no conversion was
performed. -/
def strtoullCore : List Char → Option (Nat × List Char)
  | [] => none
  | '0' :: 'x' :: rest =>
    match rest with
    | d :: _ => if isDigitBase 16 d then some (takeDigits 16 rest 0) else some (0, 'x' :: rest)
    | [] => some (0, ['x'])
  | '0' :: 'X' :: rest =>
    match rest with
    | d :: _ => if isDigitBase 16 d then some (takeDigits 16 rest 0) else some (0, 'X' :: rest)
    | [] => some (0, ['X'])
  | '0' :: rest => some (takeDigits 8 rest 0)
  | c :: rest => if isDigitBase 10 c then some (takeDigits 10 (c :: rest) 0) else none

/-- `2 ^ 63`, the first value that does not fit a 64-bit `long`. -/
def two63 : Nat := 9223372036854775808

/-- `2 ^ 64`. -/
def two64 : Nat := 18446744073709551616

/-- `ULLONG_MAX` on an LP64 host. -/
def ullongMax : Nat := 18446744073709551615

/-- C `strtoull(nptr, &endptr, 0)`: skips whitespace, accepts an optional
sign (a `-` negates the magnitude modulo `2 ^ 64`), parses the digits per
`strtoullCore`, and on overflow returns `ULLONG_MAX` with `errno` set to
`ERANGE` (the `Bool` component).  If no conversion is performed, the value
is 0, `endptr` is the original string and `errno` is untouched. -/
def strtoull (cs : List Char) : Nat × List Char × Bool :=
  let t := skipWS cs
  match t with
  | '-' :: r =>
    match strtoullCore r with
    | none => (0, cs, false)
    | some (v, rest) =>
      if ullongMax < v then (ullongMax, rest, true)
      else ((two64 - v % two64) % two64, rest, false)
  | '+' :: r =>
    match strtoullCore r with
    | none => (0, cs, false)
    | some (v, rest) =>
      if ullongMax < v then (ullongMax, rest, true) else (v, rest, false)
  | _ =>
    match strtoullCore t with
    | none => (0, cs, false)
    | some (v, rest) =>
      if ullongMax < v then (ullongMax, rest, true) else (v, rest, false)

/-- `parse_range` of vmpt.c.  `none` as input models a NULL `arg` (no `:`
suffix), which leaves the caller's defaults `b0` (0) and `e0` (the file
size) untouched.  The result is `none` exactly when the C function returns
-1: `errno` set by either conversion, a non-`-` separator, or trailing
characters after the second number. -/
def parse_range (range : Option (List Char)) (b0 e0 : Nat) : Option (Nat × Nat) :=
  match range with
  | none => some (b0, e0)
  | some cs =>
    let r1 := strtoull cs
    if r1.2.2 then none
    else
      match r1.2.1 with
      | [] => some (r1.1, e0)
      | '-' :: tl =>
        let r2 := strtoull tl
        if r2.2.2 then none
        else
          match r2.2.1 with
          | [] => some (r1.1, r2.1)
          | _ :: _ => none
      | _ :: _ => none

/-- `strstr(arg, ":")` followed by splitting: the path part before the
first `:` and, when a `:` occurs, the range specifier after it. -/
def splitColon : List Char → List Char × Option (List Char)
  | [] => ([], none)
  | c :: cs =>
    if c = ':' then ([], some cs)
    else
      let r := splitColon cs
      (c :: r.1, r.2)

/-- The distinct failures of `load_file`, one per error return of the C
function (`fopen`, `fseek`/`ftell`, `parse_range`, the `long` cast check,
the three range validations, and the `fseek`/`fread` of the slice; `malloc`
is modeled as always succeeding). -/
inductive LoadError
  | openFail
  | sizeFail
  | badRange
  | invalidOffset
  | beginOutside
  | endOutside
  | emptyRange
  | loadFail
deriving DecidableEq

/-- The `(long)` conversion of a `uint64_t` on an LP64 two's-complement
host. -/
def toLong (x : Nat) : Int :=
  if x < two63 then (x : Int) else (x : Int) - (two64 : Int)

/-- The `(uint64_t)` conversion of a `long` on an LP64 host. -/
def fromLong (i : Int) : Nat := (i % (two64 : Int)).toNat

/-- The tail of `load_file` from the cast of the parsed range to `long`
onward: the `(uint64_t)(long)` round-trip check, the three range
validations against the file size, and the `fseek`/`fread` of the slice.
`fseek` to a negative offset fails; `fread` fails when fewer bytes than
requested are available. -/
def rangeLoad (data : List Nat) (bg en : Nat) : Except LoadError (List Nat) :=
  let bL := toLong bg
  let eL := toLong en
  if fromLong bL ≠ bg ∨ fromLong eL ≠ en then Except.error LoadError.invalidOffset
  else if (data.length : Int) ≤ bL then Except.error LoadError.beginOutside
  else if (data.length : Int) < eL then Except.error LoadError.endOutside
  else if eL ≤ bL then Except.error LoadError.emptyRange
  else if bL < 0 then Except.error LoadError.loadFail
  else
    let sz := (eL - bL).toNat
    if data.length < bL.toNat + sz then Except.error LoadError.loadFail
    else Except.ok ((data.drop bL.toNat).take sz)

/-- `load_file` of vmpt.c over a modeled file system `fs` mapping a path to
the byte contents of the file, if it exists.  The argument is split on the
first `:`, the file is opened and its size determined (`ftell` fails for a
file not representable in a `long`), the range specifier is parsed with
defaults `0` and the file size, and the requested slice is validated and
read per `rangeLoad`. -/
def load_file (fs : List Char → Option (List Nat)) (arg : List Char) :
    Except LoadError (List Nat) :=
  let pr := splitColon arg
  match fs pr.1 with
  | none => Except.error LoadError.openFail
  | some data =>
    if two63 ≤ data.length then Except.error LoadError.sizeFail
    else
      match parse_range pr.2 0 data.length with
      | none => Except.error LoadError.badRange
      | some (bg, en) => rangeLoad data bg en

/-- A concrete one-file file system used to instantiate the loader
theorems. -/
def wFs : List Char → Option (List Nat) :=
  fun p => if p = ['f'] then some [10, 20, 30, 40, 50] else none

/-- Result of the argument scan in `main`: a usage error, the "no
processor trace file specified" error, or the accepted trace-file
argument. -/
inductive ArgScan
  | usageErr
  | noFileErr
  | file (f : List Char)
deriving DecidableEq

/-- The argument loop of `main`: arguments whose first character is `-`
are skipped (`strncmp(argv[idx], "-", 1) != 0` guards the body); the first
other argument is taken as the trace file, but is a usage error when it is
not the last argument; if no such argument exists, the distinct "no file"
error is raised. -/
def scanArgs : List (List Char) → ArgScan
  | [] => ArgScan.noFileErr
  | a :: rest =>
    if a.head? = some '-' then scanArgs rest
    else if rest = [] then ArgScan.file a
    else ArgScan.usageErr

/-- The process exit status produced directly by the argument scan:
`usage` and `no_file_error` both return -1; a successful scan continues
into the pipeline. -/
def argExit : ArgScan → Option Int
  | ArgScan.usageErr => some (-1)
  | ArgScan.noFileErr => some (-1)
  | ArgScan.file _ => none

/-- `%PRIx64` rendering: lowercase hexadecimal, no prefix. -/
def hexStr (n : Nat) : String := ⟨Nat.toDigits 16 n⟩

/-- `%d` rendering of the (non-negative) `nr` field. -/
def decStr (n : Nat) : String := ⟨Nat.toDigits 10 n⟩

/-- The exact text each `fprintf` burst of `dump_bundle` writes to
`bundles.json`: the PIP case opens the record object and its "packet"
array; the VMCS case appends one sub-object; the TSC case appends the last
sub-object and then closes the array and the record. -/
def renderEvent : OutEvent → String
  | OutEvent.pipFrag c n =>
    "\t\x7b\n" ++ "\t\t\"packet\": [\n" ++
      "\t\t\t\x7b\n\t\t\t\t\"id\": \"PIP\",\n\t\t\t\t\"payload\": " ++ hexStr c ++
      ",\n\t\t\t\t\"nr\": " ++ decStr n ++ "\n\t\t\t\x7d,\n"
  | OutEvent.vmcsFrag b =>
    "\t\t\t\x7b\n\t\t\t\t\"id\": \"VMCS\",\n\t\t\t\t\"payload\": " ++ hexStr b ++
      "\n\t\t\t\x7d,\n"
  | OutEvent.tscFrag t =>
    "\t\t\t\x7b\n\t\t\t\t\"id\": \"TSC\",\n\t\t\t\t\"payload\": " ++ hexStr t ++
      "\n\t\t\t\x7d\n" ++ "\t\t]\n\t\x7d,\n"

/-- Concatenated rendering of a fragment list. -/
def renderAll : List OutEvent → String
  | [] => ""
  | e :: es => renderEvent e ++ renderAll es

/-- The sequential writes into `bundles.json` while the packets are fed
through `dump_bundle`, threading the file contents written so far. -/
def runWrites (s : BState) (out : String) : List Packet → BState × String
  | [] => (s, out)
  | p :: ps =>
    let r := dump_bundle s p
    runWrites r.1 (out ++ renderAll r.2.1) ps

/-- The contents of `bundles.json` after a successful run over the given
decoded packet stream: `main` writes the header, `dump` writes the record
fragments, and `main` writes the closing bracket. -/
def fileContents (ps : List Packet) : String :=
  (runWrites clearState "\"bundle\": [\n" ps).2 ++ "]\n"

/-- Follows the spec's words, for comparison with the source: the claimed
artifact shape `\x7b"bundle": [ ... ]\x7d` is a top-level JSON object, so
its first character must be an opening brace. -/
def specTopLevelObject (s : String) : Bool := s.front == '\x7b'

/-- Result of feeding a packet span through `dump_bundle` inside
`dump_packets`: all packets consumed, or an early return with a negative
handler code, or an indeterminate handler return (the missing-return fall
through of `dump_bundle`). -/
inductive FeedRes
  | ok (s : BState) (evs : List OutEvent)
  | abort (s : BState) (evs : List OutEvent) (code : Int)
  | undef
deriving DecidableEq

/-- The packet loop of `dump_packets` over one span of successfully
decoded packets: each handler return is tested with `errcode < 0` and, if
negative, returned at once. -/
def feedPackets (s : BState) : List Packet → FeedRes
  | [] => FeedRes.ok s []
  | p :: ps =>
    match dump_bundle s p with
    | (_, _, none) => FeedRes.undef
    | (s1, evs, some r) =>
      if r < 0 then FeedRes.abort s1 evs r
      else
        match feedPackets s1 ps with
        | FeedRes.ok s2 evs2 => FeedRes.ok s2 (evs ++ evs2)
        | FeedRes.abort s2 evs2 c => FeedRes.abort s2 (evs ++ evs2) c
        | FeedRes.undef => FeedRes.undef

/-- The decoder's observable behavior for one pass, chunk by chunk: `last`
is a final span of packets after which `pt_pkt_next` reports end of
stream; `err` is a span after which `pt_pkt_next` fails at offset `off`
with the negative `code`, upon which the driver requests
`pt_pkt_sync_forward`, whose return value is `resync` (negative means the
resynchronization itself failed).  The decoder signals end-of-stream
distinctly from decode errors, so the two are distinct constructors. -/
inductive Script
  | last (pkts : List Packet)
  | err (pkts : List Packet) (off : Nat) (code : Int) (resync : Int) (rest : Script)

/-- The `for (;;)` loop of `dump_sync` over the loop body `dump_packets`:
a zero return from `dump_packets` (end of stream) breaks with success; a
nonzero return was preceded by a `diag` line with the offset and code, and
is followed by `pt_pkt_sync_forward`, which either fails (a final `diag`
at offset 0 and a fatal return of its code) or lets the loop resume.  The
result collects the final machine state, the output fragments, the
diagnostic `(offset, errcode)` pairs in order, and the value `dump_sync`
returns; `none` marks a run that hit the indeterminate `dump_bundle`
return. -/
def dump_sync_loop (s : BState) : Script → Option (BState × List OutEvent × List (Nat × Int) × Int)
  | Script.last pkts =>
    match feedPackets s pkts with
    | FeedRes.ok s1 evs => some (s1, evs, [], 0)
    | _ => none
  | Script.err pkts off code resync rest =>
    match feedPackets s pkts with
    | FeedRes.ok s1 evs =>
      if code = 0 then some (s1, evs, [(off, code)], 0)
      else if resync < 0 then some (s1, evs, [(off, code), (0, resync)], resync)
      else
        match dump_sync_loop s1 rest with
        | some (s2, evs2, ds, out) => some (s2, evs ++ evs2, (off, code) :: ds, out)
        | none => none
    | _ => none

/-- `dump_sync`: `pt_pkt_sync_set(decoder, 0)` and the initial
`pt_pkt_sync_forward` each abort the whole pass with a fatal `diag` when
negative; otherwise the decode loop runs. -/
def dump_sync_model (syncSet syncFwd : Int) (s : BState) (scr : Script) :
    Option (BState × List OutEvent × List (Nat × Int) × Int) :=
  if syncSet < 0 then some (s, [], [(0, syncSet)], syncSet)
  else if syncFwd < 0 then some (s, [], [(0, syncFwd)], syncFwd)
  else dump_sync_loop s scr

/-- The packets the pass hands to the state machine before it terminates:
all packets of a chunk are forwarded, and decoding resumes past a decode
error exactly when the resynchronization succeeded. -/
def scrPackets : Script → List Packet
  | Script.last ps => ps
  | Script.err ps _ _ resync rest => ps ++ (if resync < 0 then [] else scrPackets rest)

/-- The diagnostics the pass prints: one `(offset, code)` line per decode
error reached, and a final `(0, resync)` line when a resynchronization
fails. -/
def scrDiags : Script → List (Nat × Int)
  | Script.last _ => []
  | Script.err _ off code resync rest =>
    (off, code) :: (if resync < 0 then [(0, resync)] else scrDiags rest)

/-- The value `dump_sync` returns for the pass: 0 on end of stream, the
failing `pt_pkt_sync_forward` code otherwise. -/
def scrOutcome : Script → Int
  | Script.last _ => 0
  | Script.err _ _ _ resync rest => if resync < 0 then resync else scrOutcome rest

/-- Whether every resynchronization attempt in the script succeeds. -/
def scrResyncsOk : Script → Bool
  | Script.last _ => true
  | Script.err _ _ _ resync rest => decide (0 ≤ resync) && scrResyncsOk rest

/-- Well-formedness of a decoder script: every delivered packet is one of
the variants `dump_bundle` handles (its return is indeterminate
otherwise), and every decode-error code is negative, as the decoder
contract guarantees. -/
def scrOk : Script → Prop
  | Script.last ps => ∀ p ∈ ps, p ≠ Packet.other
  | Script.err ps _ code _ rest => (∀ p ∈ ps, p ≠ Packet.other) ∧ code < 0 ∧ scrOk rest

/-- C1: from the all-clear state, the sequence ContextChange(p, n), eight
Padding packets, ControlStructure(b), Timestamp(t) drives the machine to
emit exactly the fragments of one bundle record, whose context is `p`/`n`,
whose single control sub-object is `b` and whose timestamp is `t`; the
final state has only the padding-run flag set. -/
theorem C1_full_sequence_one_bundle (p n b t : Nat) :
    runPackets clearState
        (Packet.pip p n :: (List.replicate 8 Packet.pad ++ [Packet.vmcs b, Packet.tsc t]))
      = (⟨0, 1, 0, 0⟩, [OutEvent.pipFrag p n, OutEvent.vmcsFrag b, OutEvent.tscFrag t])
    ∧ bundlesOf (runPackets clearState
        (Packet.pip p n :: (List.replicate 8 Packet.pad ++ [Packet.vmcs b, Packet.tsc t]))).2
      = [⟨p, n, [b], t⟩] := by
  have h : runPackets clearState
      (Packet.pip p n :: (List.replicate 8 Packet.pad ++ [Packet.vmcs b, Packet.tsc t]))
      = (⟨0, 1, 0, 0⟩, [OutEvent.pipFrag p n, OutEvent.vmcsFrag b, OutEvent.tscFrag t]) := by
    simp [runPackets, dump_bundle, clearState, List.replicate_succ, List.replicate]
  exact ⟨h, by rw [h]; rfl⟩

/-- C2: while a bundle is in progress (`got_pip` is already 1), a further
ContextChange packet is ignored: the whole state is retained exactly,
nothing is written to the output, and the handler returns 0. -/
theorem C2_repeat_context_change_ignored (s : BState) (p n : Nat) (h : s.got_pip = 1) :
    dump_bundle s (Packet.pip p n) = (s, [], some 0) := by
  simp [dump_bundle, h]

/-- Witness for C2 at a concrete mid-bundle state. -/
theorem C2_witness :
    dump_bundle ⟨1, 1, 0, 3⟩ (Packet.pip 7 2) = (⟨1, 1, 0, 3⟩, [], some 0) :=
  C2_repeat_context_change_ignored ⟨1, 1, 0, 3⟩ 7 2 rfl

/-- C3: a Timestamp packet is accepted exactly when `got_pip = 1` and
`got_vmcs = 1`; acceptance clears those two flags while leaving `got_pad`
and `pad_cnt` untouched, and otherwise the packet leaves the state
unchanged.  Consequently, after a completed bundle, a ContextChange
followed directly by a ControlStructure (no fresh padding run) is
accepted and a second bundle completes. -/
theorem C3_timestamp_accept_and_clear (s : BState) (t p n b p2 n2 b2 t2 : Nat) :
    (s.got_pip = 1 → s.got_vmcs = 1 →
      dump_bundle s (Packet.tsc t) = (⟨0, s.got_pad, 0, s.pad_cnt⟩, [OutEvent.tscFrag t], some 0))
    ∧ (¬(s.got_pip = 1 ∧ s.got_vmcs = 1) →
      dump_bundle s (Packet.tsc t) = (s, [], some 0))
    ∧ bundlesOf (runPackets clearState
        (Packet.pip p n :: (List.replicate 8 Packet.pad ++
          [Packet.vmcs b, Packet.tsc t, Packet.pip p2 n2, Packet.vmcs b2, Packet.tsc t2]))).2
      = [⟨p, n, [b], t⟩, ⟨p2, n2, [b2], t2⟩] := by
  refine ⟨fun h1 h2 => ?_, fun h => ?_, ?_⟩
  · simp [dump_bundle, h1, h2]
  · simp [dump_bundle, h]
  · have h : runPackets clearState
        (Packet.pip p n :: (List.replicate 8 Packet.pad ++
          [Packet.vmcs b, Packet.tsc t, Packet.pip p2 n2, Packet.vmcs b2, Packet.tsc t2]))
        = (⟨0, 1, 0, 0⟩, [OutEvent.pipFrag p n, OutEvent.vmcsFrag b, OutEvent.tscFrag t,
            OutEvent.pipFrag p2 n2, OutEvent.vmcsFrag b2, OutEvent.tscFrag t2]) := by
      simp [runPackets, dump_bundle, clearState, List.replicate_succ, List.replicate]
    rw [h]; rfl

/-- Witness for C3: acceptance at a concrete post-VMCS state, rejection at
the all-clear state. -/
theorem C3_witness :
    dump_bundle ⟨1, 1, 1, 0⟩ (Packet.tsc 9) = (⟨0, 1, 0, 0⟩, [OutEvent.tscFrag 9], some 0)
    ∧ dump_bundle ⟨0, 0, 0, 0⟩ (Packet.tsc 9) = (⟨0, 0, 0, 0⟩, [], some 0) :=
  ⟨(C3_timestamp_accept_and_clear ⟨1, 1, 1, 0⟩ 9 0 0 0 0 0 0 0).1 rfl rfl,
   (C3_timestamp_accept_and_clear ⟨0, 0, 0, 0⟩ 9 0 0 0 0 0 0 0).2.1 (by decide)⟩

/-- C8: for a packet of any variant other than the four recognized ones,
`dump_bundle` leaves the entire state unchanged and writes nothing, but
its C return value is indeterminate (`none`): the switch has no default
case and control falls off the end of the non-void function, so the
`errcode < 0` test in `dump_packets` reads an indeterminate value instead
of the non-negative result the specification promises. -/
theorem C8_unhandled_packet_state_kept_return_indeterminate (s : BState) :
    dump_bundle s Packet.other = (s, [], none) := rfl

/-- C10: a ControlStructure packet is accepted whenever `got_pip = 1` and
`got_pad = 1` — `got_vmcs` is not consulted — so a second ControlStructure
before the Timestamp is accepted as well, appends a second VMCS sub-object
to the same in-progress record, and its payload is the last one recorded
for the bundle. -/
theorem C10_vmcs_not_gated_by_got_vmcs (s : BState) (b p n b1 b2 t : Nat)
    (h1 : s.got_pip = 1) (h2 : s.got_pad = 1) :
    dump_bundle s (Packet.vmcs b) = (⟨1, 1, 1, s.pad_cnt⟩, [OutEvent.vmcsFrag b], some 0)
    ∧ bundlesOf (runPackets clearState
        (Packet.pip p n :: (List.replicate 8 Packet.pad ++
          [Packet.vmcs b1, Packet.vmcs b2, Packet.tsc t]))).2
      = [⟨p, n, [b1, b2], t⟩]
    ∧ (Bundle.mk p n [b1, b2] t).vmcsBases.getLast? = some b2 := by
  refine ⟨?_, ?_, rfl⟩
  · simp [dump_bundle, h1, h2]
  · have h : runPackets clearState
        (Packet.pip p n :: (List.replicate 8 Packet.pad ++
          [Packet.vmcs b1, Packet.vmcs b2, Packet.tsc t]))
        = (⟨0, 1, 0, 0⟩, [OutEvent.pipFrag p n, OutEvent.vmcsFrag b1, OutEvent.vmcsFrag b2,
            OutEvent.tscFrag t]) := by
      simp [runPackets, dump_bundle, clearState, List.replicate_succ, List.replicate]
    rw [h]; rfl

/-- Witness for C10 at a concrete state whose `got_vmcs` is already 1. -/
theorem C10_witness :
    dump_bundle ⟨1, 1, 1, 0⟩ (Packet.vmcs 5) = (⟨1, 1, 1, 0⟩, [OutEvent.vmcsFrag 5], some 0)
    ∧ bundlesOf (runPackets clearState
        (Packet.pip 3 1 :: (List.replicate 8 Packet.pad ++
          [Packet.vmcs 5, Packet.vmcs 6, Packet.tsc 7]))).2
      = [⟨3, 1, [5, 6], 7⟩] :=
  ⟨(C10_vmcs_not_gated_by_got_vmcs ⟨1, 1, 1, 0⟩ 5 3 1 5 6 7 rfl rfl).1,
   (C10_vmcs_not_gated_by_got_vmcs ⟨1, 1, 1, 0⟩ 5 3 1 5 6 7 rfl rfl).2.1⟩

/-- `toLong` of a value below `2 ^ 63` is the value itself. -/
theorem toLong_small (x : Nat) (h : x < two63) : toLong x = (x : Int) := by
  simp [toLong, h]

/-- `toLong` of a value in `[2 ^ 63, 2 ^ 64)` wraps to a negative long. -/
theorem toLong_wrap (x : Nat) (h : ¬x < two63) :
    toLong x = (x : Int) - (two64 : Int) := by
  simp [toLong, h]

/-- Inversion of a successful `rangeLoad`: the slice is returned only when
the requested range is valid for the file, and it is exactly the requested
slice. -/
theorem rangeLoad_ok_inv (data : List Nat) (bg en : Nat) (buf : List Nat)
    (hbg : bg < two64) (hen : en < two64)
    (h : rangeLoad data bg en = Except.ok buf) :
    bg < en ∧ en ≤ data.length ∧ bg < two63 ∧ en < two63
      ∧ buf = (data.drop bg).take (en - bg) := by
  simp only [two64] at hbg hen
  simp only [rangeLoad] at h
  split at h
  · cases h
  split at h
  · cases h
  split at h
  · cases h
  split at h
  · cases h
  split at h
  · cases h
  split at h
  · cases h
  rename_i hcast hb1 he1 horder hneg hread
  have hb : bg < two63 := by
    by_contra hb
    rw [toLong_wrap bg hb] at hneg
    simp only [two64] at hneg
    simp only [two63] at hb
    omega
  have he : en < two63 := by
    by_contra he
    rw [toLong_wrap en he, toLong_small bg hb] at horder
    simp only [two64] at horder
    simp only [two63] at he hb
    omega
  simp only [toLong_small bg hb, toLong_small en he] at hb1 he1 horder h
  refine ⟨by omega, by omega, hb, he, ?_⟩
  have hx : ((bg : Int)).toNat = bg := by omega
  have hy : (((en : Int)) - ((bg : Int))).toNat = en - bg := by omega
  rw [hx, hy] at h
  cases h
  rfl

/-- A valid range is loaded as exactly the requested slice. -/
theorem rangeLoad_ok (data : List Nat) (bg en : Nat)
    (hlt : bg < en) (hle : en ≤ data.length) (hlen : data.length < two63) :
    rangeLoad data bg en = Except.ok ((data.drop bg).take (en - bg)) := by
  have hb : bg < two63 := by
    have h1 : bg < data.length := lt_of_lt_of_le hlt hle
    exact lt_trans h1 hlen
  have he : en < two63 := lt_of_le_of_lt hle hlen
  have hb63 := hb
  have he63 := he
  simp only [two63] at hb63 he63
  unfold rangeLoad
  rw [toLong_small bg hb, toLong_small en he]
  rw [if_neg (by simp only [fromLong, two64]; omega)]
  rw [if_neg (by omega)]
  rw [if_neg (by omega)]
  rw [if_neg (by omega)]
  rw [if_neg (by omega)]
  have hx : ((bg : Int)).toNat = bg := by omega
  have hy : (((en : Int)) - ((bg : Int))).toNat = en - bg := by omega
  rw [hx, hy]
  rw [if_neg (by omega)]

/-- Reduction of `load_file` once the file is open, its size known, and the
range parsed. -/
theorem load_file_reduces (fs : List Char → Option (List Nat)) (arg : List Char)
    (data : List Nat) (bg en : Nat)
    (hfs : fs (splitColon arg).1 = some data)
    (hsize : data.length < two63)
    (hpr : parse_range (splitColon arg).2 0 data.length = some (bg, en)) :
    load_file fs arg = rangeLoad data bg en := by
  simp only [load_file]
  rw [hfs]
  simp only []
  rw [if_neg (Nat.not_le.mpr hsize)]
  rw [hpr]

/-- C4: whenever the requested byte range has `en ≤ bg`, or `bg` at or past
the file size, or `en` past the file size, the loader fails with a load
error and returns no buffer. -/
theorem C4_bad_range_fails (fs : List Char → Option (List Nat)) (arg : List Char)
    (data : List Nat) (bg en : Nat)
    (hfs : fs (splitColon arg).1 = some data)
    (hsize : data.length < two63)
    (hpr : parse_range (splitColon arg).2 0 data.length = some (bg, en))
    (hbg : bg < two64) (hen : en < two64)
    (hbad : en ≤ bg ∨ data.length ≤ bg ∨ data.length < en) :
    ∃ e, load_file fs arg = Except.error e := by
  rw [load_file_reduces fs arg data bg en hfs hsize hpr]
  cases hres : rangeLoad data bg en with
  | error e => exact ⟨e, rfl⟩
  | ok buf =>
    obtain ⟨h1, h2, _, _, _⟩ := rangeLoad_ok_inv data bg en buf hbg hen hres
    omega

/-- Witness for C4: requesting start offset 9 of a 5-byte file fails. -/
theorem C4_witness : ∃ e, load_file wFs ['f', ':', '9'] = Except.error e :=
  C4_bad_range_fails wFs ['f', ':', '9'] [10, 20, 30, 40, 50] 9 5 rfl (by decide) rfl
    (by decide) (by decide) (by decide)

/-- Splitting an argument without a colon yields the whole argument as the
path and no range specifier. -/
theorem splitColon_no_colon (l : List Char) (h : ∀ c ∈ l, c ≠ ':') :
    splitColon l = (l, none) := by
  induction l with
  | nil => rfl
  | cons c cs ih =>
    have hc : c ≠ ':' := h c (List.mem_cons_self c cs)
    have ih2 := ih (fun x hx => h x (List.mem_cons_of_mem c hx))
    simp [splitColon, hc, ih2]

/-- C5: a parsed range with `bg < en ≤ file size` loads successfully and
returns a buffer of exactly `en - bg` bytes equal to the file's slice at
offsets `[bg, en)`; an argument with no `:` loads the whole file; a range
specifier consisting of a single number sets the start offset, with the
end defaulting to the file size. -/
theorem C5_valid_range_slice (fs : List Char → Option (List Nat)) (arg : List Char)
    (data : List Nat) (bg en : Nat)
    (hfs : fs (splitColon arg).1 = some data)
    (hsize : data.length < two63)
    (hpr : parse_range (splitColon arg).2 0 data.length = some (bg, en))
    (hlt : bg < en) (hle : en ≤ data.length) :
    (load_file fs arg = Except.ok ((data.drop bg).take (en - bg))
      ∧ ((data.drop bg).take (en - bg)).length = en - bg)
    ∧ (∀ (arg2 : List Char) (data2 : List Nat), (∀ c ∈ arg2, c ≠ ':') →
        fs arg2 = some data2 → 0 < data2.length → data2.length < two63 →
        load_file fs arg2 = Except.ok data2)
    ∧ (∀ (cs : List Char) (b e0 : Nat), strtoull cs = (b, [], false) →
        parse_range (some cs) 0 e0 = some (b, e0)) := by
  refine ⟨⟨?_, ?_⟩, ?_, ?_⟩
  · rw [load_file_reduces fs arg data bg en hfs hsize hpr]
    exact rangeLoad_ok data bg en hlt hle hsize
  · simp only [List.length_take, List.length_drop]
    omega
  · intro arg2 data2 hnc hfs2 hpos hsize2
    have hsplit := splitColon_no_colon arg2 hnc
    have hfs2' : fs (splitColon arg2).1 = some data2 := by rw [hsplit]; exact hfs2
    have hpr2 : parse_range (splitColon arg2).2 0 data2.length
        = some (0, data2.length) := by rw [hsplit]; rfl
    rw [load_file_reduces fs arg2 data2 0 data2.length hfs2' hsize2 hpr2]
    rw [rangeLoad_ok data2 0 data2.length hpos (le_refl _) hsize2]
    simp
  · intro cs b e0 hst
    simp only [parse_range]
    rw [hst]
    rfl

/-- Witness for C5: loading bytes [1, 3) of a 5-byte file, loading the
whole file with no range suffix, and a single-number specifier defaulting
the end to the file size. -/
theorem C5_witness :
    load_file wFs ['f', ':', '1', '-', '3'] = Except.ok [20, 30]
    ∧ load_file wFs ['f'] = Except.ok [10, 20, 30, 40, 50]
    ∧ parse_range (some ['7']) 0 5 = some (7, 5) :=
  ⟨(C5_valid_range_slice wFs ['f', ':', '1', '-', '3'] [10, 20, 30, 40, 50] 1 3 rfl
      (by decide) rfl (by decide) (by decide)).1.1,
   (C5_valid_range_slice wFs ['f', ':', '1', '-', '3'] [10, 20, 30, 40, 50] 1 3 rfl
      (by decide) rfl (by decide) (by decide)).2.1 ['f'] [10, 20, 30, 40, 50]
      (by decide) rfl (by decide) (by decide),
   (C5_valid_range_slice wFs ['f', ':', '1', '-', '3'] [10, 20, 30, 40, 50] 1 3 rfl
      (by decide) rfl (by decide) (by decide)).2.2 ['7'] 7 5 rfl⟩

/-- Arguments whose first character is `-` are all skipped by the scan. -/
theorem scanArgs_all_dash (args : List (List Char))
    (h : ∀ d ∈ args, d.head? = some '-') : scanArgs args = ArgScan.noFileErr := by
  induction args with
  | nil => rfl
  | cons a rest ih =>
    have ha : a.head? = some '-' := h a (List.mem_cons_self a rest)
    have ih2 := ih (fun d hd => h d (List.mem_cons_of_mem a hd))
    simp [scanArgs, ha, ih2]

/-- A leading block of `-`-arguments does not affect the scan result. -/
theorem scanArgs_skip_dashes (pre : List (List Char)) (l : List (List Char))
    (h : ∀ d ∈ pre, d.head? = some '-') : scanArgs (pre ++ l) = scanArgs l := by
  induction pre with
  | nil => rfl
  | cons a rest ih =>
    have ha : a.head? = some '-' := h a (List.mem_cons_self a rest)
    have ih2 := ih (fun d hd => h d (List.mem_cons_of_mem a hd))
    simp [scanArgs, ha, ih2]

/-- Counterexample to C7 as stated: the invocation `vmpt -x f` contains an
option-style argument, which the claim says must be a usage error, yet the
scan skips it and accepts `f` as the trace file. -/
theorem C7_counterexample :
    scanArgs [['-', 'x'], ['f']] = ArgScan.file ['f']
    ∧ scanArgs [['-', 'x'], ['f']] ≠ ArgScan.usageErr := by
  constructor <;> decide

/-- C7 (amended): the first argument not beginning with `-` is taken as
the trace file when it is the last argument, and is a usage error (exit
-1) otherwise; arguments beginning with `-` are skipped, never rejected;
when every argument begins with `-` (or there are none), the distinct "no
file" error (exit -1) results. -/
theorem C7_amended_scan (pre : List (List Char)) (a : List Char) (post : List (List Char))
    (hpre : ∀ d ∈ pre, d.head? = some '-') (ha : a.head? ≠ some '-') :
    scanArgs (pre ++ a :: post)
      = (if post = [] then ArgScan.file a else ArgScan.usageErr)
    ∧ (∀ args, (∀ d ∈ args, d.head? = some '-') → scanArgs args = ArgScan.noFileErr)
    ∧ argExit ArgScan.usageErr = some (-1)
    ∧ argExit ArgScan.noFileErr = some (-1) := by
  refine ⟨?_, scanArgs_all_dash, rfl, rfl⟩
  rw [scanArgs_skip_dashes pre (a :: post) hpre]
  simp [scanArgs, ha]

/-- Witness for C7 (amended): `-a f` accepts `f`; `-b` alone is the
"no file" error. -/
theorem C7_witness :
    scanArgs [['-', 'a'], ['f']] = ArgScan.file ['f']
    ∧ scanArgs [['-', 'b']] = ArgScan.noFileErr :=
  ⟨(C7_amended_scan [['-', 'a']] ['f'] [] (by decide) (by decide)).1,
   (C7_amended_scan [['-', 'a']] ['f'] [] (by decide) (by decide)).2.1 [['-', 'b']] (by decide)⟩

/-- Rendering distributes over appended fragment lists. -/
theorem renderAll_append (a b : List OutEvent) :
    renderAll (a ++ b) = renderAll a ++ renderAll b := by
  induction a with
  | nil => simp [renderAll]
  | cons e es ih => simp [renderAll, ih, String.append_assoc]

/-- The write-threading run factors into the pure machine run followed by
rendering. -/
theorem runWrites_spec (ps : List Packet) (s : BState) (out : String) :
    runWrites s out ps = ((runPackets s ps).1, out ++ renderAll (runPackets s ps).2) := by
  induction ps generalizing s out with
  | nil => simp [runWrites, runPackets, renderAll]
  | cons p ps ih =>
    simp [runWrites, runPackets, ih, renderAll_append, String.append_assoc]

/-- Counterexample to C6 as stated: for the empty packet stream the
artifact's contents are `"bundle": [` newline `]` newline — the first
character is `"`, not an opening brace, so the contents are not a
top-level JSON object of the claimed form. -/
theorem C6_counterexample :
    fileContents [] = "\"bundle\": [\n]\n"
    ∧ specTopLevelObject (fileContents []) = false := by
  constructor <;> rfl

/-- C6 (amended): on every successful run the artifact's contents are the
single key `"bundle"` followed by the array of all emitted record
fragments in stream order and the closing bracket — with no enclosing
braces around the key, so the file is not a top-level JSON object. -/
theorem C6_amended_wrapper (ps : List Packet) :
    fileContents ps
      = "\"bundle\": [\n" ++ (renderAll (runPackets clearState ps).2 ++ "]\n")
    ∧ specTopLevelObject (fileContents ps) = false := by
  have h : fileContents ps
      = "\"bundle\": [\n" ++ (renderAll (runPackets clearState ps).2 ++ "]\n") := by
    unfold fileContents
    rw [runWrites_spec]
    rw [String.append_assoc]
  refine ⟨h, ?_⟩
  rw [h]
  rfl

/-- For each of the four recognized packet variants, `dump_bundle` returns
errcode 0. -/
theorem dump_bundle_known (s : BState) (p : Packet) (hp : p ≠ Packet.other) :
    ∃ s1 evs, dump_bundle s p = (s1, evs, some 0) := by
  cases p with
  | pip cr3 nr =>
    simp only [dump_bundle]
    split
    · exact ⟨_, _, rfl⟩
    · exact ⟨_, _, rfl⟩
  | pad => exact ⟨_, _, rfl⟩
  | vmcs base =>
    simp only [dump_bundle]
    split
    · exact ⟨_, _, rfl⟩
    · exact ⟨_, _, rfl⟩
  | tsc t =>
    simp only [dump_bundle]
    split
    · exact ⟨_, _, rfl⟩
    · exact ⟨_, _, rfl⟩
  | other => exact absurd rfl hp

/-- On a span of recognized packets, the `dump_packets` loop consumes all
of them and agrees with the pure machine run. -/
theorem feedPackets_ok (ps : List Packet) (s : BState)
    (hp : ∀ p ∈ ps, p ≠ Packet.other) :
    feedPackets s ps = FeedRes.ok (runPackets s ps).1 (runPackets s ps).2 := by
  induction ps generalizing s with
  | nil => rfl
  | cons p ps ih =>
    obtain ⟨s1, evs, hdb⟩ := dump_bundle_known s p (hp p (List.mem_cons_self p ps))
    have ihs := ih s1 (fun q hq => hp q (List.mem_cons_of_mem p hq))
    simp [feedPackets, runPackets, hdb, ihs]

/-- The machine run splits over appended packet spans. -/
theorem runPackets_append (xs ys : List Packet) (s : BState) :
    runPackets s (xs ++ ys)
      = ((runPackets (runPackets s xs).1 ys).1,
         (runPackets s xs).2 ++ (runPackets (runPackets s xs).1 ys).2) := by
  induction xs generalizing s with
  | nil => simp [runPackets]
  | cons p xs ih => simp [runPackets, ih]

/-- The driver loop on a well-formed script runs the machine over exactly
the packets up to the termination point, reports exactly the expected
diagnostics, and returns the expected outcome. -/
theorem dump_sync_loop_spec (scr : Script) (s : BState) (hok : scrOk scr) :
    dump_sync_loop s scr
      = some ((runPackets s (scrPackets scr)).1, (runPackets s (scrPackets scr)).2,
              scrDiags scr, scrOutcome scr) := by
  induction scr generalizing s with
  | last ps =>
    simp [dump_sync_loop, feedPackets_ok ps s hok, scrPackets, scrDiags, scrOutcome]
  | err ps off code resync rest ih =>
    obtain ⟨hps, hcode, hrest⟩ := hok
    have hc0 : ¬code = 0 := by omega
    by_cases hr : resync < 0
    · simp [dump_sync_loop, feedPackets_ok ps s hps, scrPackets, scrDiags, scrOutcome,
        hc0, hr]
    · simp [dump_sync_loop, feedPackets_ok ps s hps, scrPackets, scrDiags, scrOutcome,
        hc0, hr, ih (runPackets s ps).1 hrest, runPackets_append]

/-- The pass outcome is zero when every resynchronization succeeds and is
the (negative) failing resynchronization code otherwise. -/
theorem scrOutcome_cases (scr : Script) :
    (scrResyncsOk scr = true → scrOutcome scr = 0)
    ∧ (scrResyncsOk scr = false → scrOutcome scr < 0) := by
  induction scr with
  | last ps => simp [scrResyncsOk, scrOutcome]
  | err ps off code resync rest ih =>
    by_cases hr : resync < 0
    · have hn : ¬0 ≤ resync := by omega
      simp [scrResyncsOk, scrOutcome, hr, hn]
    · have h0 : 0 ≤ resync := by omega
      simpa [scrResyncsOk, scrOutcome, hr, h0] using ih

/-- C9: after a successful initial synchronization, the driver feeds every
packet up to the termination point to the state machine in order, prints
one non-fatal diagnostic (offset and error code) per decode error and
resumes after each successful resynchronization, terminates with success
(return 0) exactly when end-of-stream is reached, and ends fatally — with
the failing code — exactly when a resynchronization attempt itself
fails. -/
theorem C9_driver_recovery (syncSet syncFwd : Int) (s : BState) (scr : Script)
    (hset : 0 ≤ syncSet) (hfwd : 0 ≤ syncFwd) (hok : scrOk scr) :
    dump_sync_model syncSet syncFwd s scr
      = some ((runPackets s (scrPackets scr)).1, (runPackets s (scrPackets scr)).2,
              scrDiags scr, scrOutcome scr)
    ∧ (scrOutcome scr = 0 ↔ scrResyncsOk scr = true)
    ∧ (scrResyncsOk scr = false → scrOutcome scr < 0) := by
  refine ⟨?_, ⟨?_, ?_⟩, (scrOutcome_cases scr).2⟩
  · unfold dump_sync_model
    rw [if_neg (by omega), if_neg (by omega)]
    exact dump_sync_loop_spec scr s hok
  · intro h0
    by_contra hfalse
    have hf : scrResyncsOk scr = false := by
      cases hcase : scrResyncsOk scr
      · rfl
      · exact absurd hcase hfalse
    have := (scrOutcome_cases scr).2 hf
    omega
  · exact (scrOutcome_cases scr).1

/-- Witness for C9: a pass with one recovered decode error, then end of
stream. -/
theorem C9_witness :
    dump_sync_model 0 0 clearState
        (Script.err [Packet.pip 1 2] 4 (-3) 0 (Script.last [Packet.pad]))
      = some (⟨1, 0, 0, 1⟩, [OutEvent.pipFrag 1 2], [(4, -3)], 0) :=
  (C9_driver_recovery 0 0 clearState
      (Script.err [Packet.pip 1 2] 4 (-3) 0 (Script.last [Packet.pad]))
      (by decide) (by decide) (by exact ⟨by decide, by decide, by exact fun p hp => by simp at hp; simp [hp]⟩)).1
